import Mathlib

/-!
Verification of the logistic-regression cat classifier
(`src/image_classification.py`) against its design specification.

The numeric model is exact real arithmetic (the spec states its numeric
properties "in exact arithmetic").  A numpy 2-D array is embedded as a
`Mat`: a pair of dimensions together with a total entry function; entries
outside the stated shape are irrelevant junk, as in any shallow array
embedding.  numpy operations that can raise (`np.dot` with misaligned
shapes, `np.zeros` with a negative dimension, elementwise arithmetic on
incompatible shapes) return `Except`; Python-level failures that the
source can hit (an `assert`, reading a loop variable that was never
bound, unpacking a tuple into the wrong number of targets) are modelled
the same way.

Broadcasting note: numpy would broadcast elementwise operands whose
shapes differ only in size-1 axes.  Every elementwise call site in this
source combines arrays of identical shape (guarded upstream by the
`np.dot` alignment check and the documented `(1, N)` label shape), so the
embedding checks plain shape equality; scalar-array combinations, which
numpy always accepts, are modelled as total `Mat` maps.
-/

open scoped BigOperators

/-- Errors the embedded program can raise: numpy `ValueError`s
(distinguished here by cause) and Python `NameError`. -/
inductive NpErr where
  | shapeMismatch
  | negativeDimension
  | assertionError
  | nameError
  | unpackMismatch
  deriving DecidableEq, Repr

/-- A numpy 2-D array: a shape plus a total entry function.  Only the
entries with `i < rows` and `j < cols` are meaningful. -/
structure Mat where
  rows : ℕ
  cols : ℕ
  entry : ℕ → ℕ → ℝ

/-- The gradient dictionary returned by `propagate`: `{"dw": …, "db": …}`. -/
structure Grads where
  dw : Mat
  db : ℝ

/-- The parameter dictionary returned by `optimize`: `{"w": …, "b": …}`. -/
structure Params where
  w : Mat
  b : ℝ

noncomputable section

/-- Transpose, `a.T` in numpy. -/
def Mat.T (a : Mat) : Mat := ⟨a.cols, a.rows, fun i j => a.entry j i⟩

/-- Unchecked matrix product (the mathematics of `np.dot` on aligned 2-D
arrays). -/
def dotU (a b : Mat) : Mat :=
  ⟨a.rows, b.cols, fun i j => ∑ k in Finset.range a.cols, a.entry i k * b.entry k j⟩

/-- Checked `np.dot` for 2-D arrays: raises `ValueError` ("shapes not
aligned") when the inner dimensions differ. -/
def npDot (a b : Mat) : Except NpErr Mat :=
  if a.cols = b.rows then .ok (dotU a b) else .error .shapeMismatch

/-- Unchecked elementwise difference. -/
def subU (a b : Mat) : Mat :=
  ⟨a.rows, a.cols, fun i j => a.entry i j - b.entry i j⟩

/-- Unchecked elementwise sum. -/
def addU (a b : Mat) : Mat :=
  ⟨a.rows, a.cols, fun i j => a.entry i j + b.entry i j⟩

/-- Unchecked elementwise product (`np.multiply`). -/
def mulU (a b : Mat) : Mat :=
  ⟨a.rows, a.cols, fun i j => a.entry i j * b.entry i j⟩

/-- Checked elementwise difference between equal-shape arrays. -/
def npSub (a b : Mat) : Except NpErr Mat :=
  if a.rows = b.rows ∧ a.cols = b.cols then .ok (subU a b) else .error .shapeMismatch

/-- Checked elementwise sum between equal-shape arrays. -/
def npAdd (a b : Mat) : Except NpErr Mat :=
  if a.rows = b.rows ∧ a.cols = b.cols then .ok (addU a b) else .error .shapeMismatch

/-- Checked elementwise product between equal-shape arrays. -/
def npMul (a b : Mat) : Except NpErr Mat :=
  if a.rows = b.rows ∧ a.cols = b.cols then .ok (mulU a b) else .error .shapeMismatch

/-- Elementwise map over an array. -/
def Mat.map (f : ℝ → ℝ) (a : Mat) : Mat :=
  ⟨a.rows, a.cols, fun i j => f (a.entry i j)⟩

/-- Broadcast scalar addition, `a + c`. -/
def matAddScalar (a : Mat) (c : ℝ) : Mat := a.map (fun x => x + c)

/-- Broadcast scalar-minus-array, `c - a` (used for `1 - Y`, `1 - A`). -/
def scalarSub (c : ℝ) (a : Mat) : Mat := a.map (fun x => c - x)

/-- Broadcast scalar multiplication, `c * a`. -/
def smul (c : ℝ) (a : Mat) : Mat := a.map (fun x => c * x)

/-- Elementwise `np.log`. -/
def matLog (a : Mat) : Mat := a.map Real.log

/-- `np.sum` over the whole array. -/
def matSum (a : Mat) : ℝ :=
  ∑ i in Finset.range a.rows, ∑ j in Finset.range a.cols, a.entry i j

/-- Source line 94: `s = 1 / (1 + np.exp(-z))`, the scalar case. -/
def sigmoid (z : ℝ) : ℝ := 1 / (1 + Real.exp (-z))

/-- `sigmoid` applied elementwise to an array argument. -/
def sigmoidM (a : Mat) : Mat := a.map sigmoid

/-- Source lines 58-78, `initialize_with_zeros(dim)`.  `np.zeros((dim, 1))`
raises `ValueError` for a negative dimension and otherwise allocates the
zero array (an empty one when `dim = 0`); the function then asserts that
`w` has shape `(dim, 1)` and that `b` is an int or float. -/
def initialize_with_zeros (dim : ℤ) : Except NpErr (Mat × ℝ) :=
  if dim < 0 then .error .negativeDimension
  else
    let w : Mat := ⟨dim.toNat, 1, fun _ _ => 0⟩
    let b : ℝ := 0
    -- assert (w.shape == (dim, 1)); assert (isinstance(b, float) or isinstance(b, int))
    if (w.rows : ℤ) = dim ∧ w.cols = 1 then .ok (w, b) else .error .assertionError

/-- Source lines 99-138, `propagate(w, b, X, Y)`.  Computes the activation
`A = sigmoid(np.dot(w.T, X) + b)`, the cross-entropy cost, and the
gradients `dw`, `db`, in source order; the trailing
`assert (dw.shape == w.shape)` is modelled, while
`assert (db.dtype == float)`, `np.squeeze(cost)` and
`assert (cost.shape == ())` are identities here because `db` and `cost`
are already real scalars in this embedding. -/
def propagate (w : Mat) (b : ℝ) (X Y : Mat) : Except NpErr (Grads × ℝ) := do
  let m : ℝ := (X.cols : ℝ)
  let wTX ← npDot w.T X
  let A := sigmoidM (matAddScalar wTX b)
  let t1 ← npMul Y (matLog A)
  let t2 ← npMul (scalarSub 1 Y) (matLog (scalarSub 1 A))
  let s ← npAdd t1 t2
  let cost := -1 / m * matSum s
  let AmY ← npSub A Y
  let dwDot ← npDot X AmY.T
  let dw := smul (1 / m) dwDot
  let db := 1 / m * matSum AmY
  if dw.rows = w.rows ∧ dw.cols = w.cols then
    .ok ({ dw := dw, db := db }, cost)
  else
    .error .assertionError

/-- The running state of `optimize`'s loop: the current parameters, the
two bookkeeping lists `costs` and `iterations`, and the most recent
`grads` binding — `none` before the first iteration, which models the
fact that the loop variables `dw`, `db` are unbound when the loop body
never ran. -/
structure OptState where
  w : Mat
  b : ℝ
  costs : List ℝ
  iterations : List ℕ
  lastGrads : Option Grads

/-- One pass of the `for i in range(num_iterations)` body of `optimize`
(source lines 165-187): call `propagate`, read `dw`/`db` out of the
gradient dictionary, rebind `w` and `b` via the update rule, and append
to the bookkeeping lists when `i % 100 == 0`.  The `print_cost` branch
only prints and is not modelled. -/
def optBody (X Y : Mat) (learning_rate : ℝ) (s : OptState) (i : ℕ) :
    Except NpErr OptState := do
  let (grads, cost) ← propagate s.w s.b X Y
  let dw := grads.dw
  let db := grads.db
  let w ← npSub s.w (smul learning_rate dw)
  let b := s.b - learning_rate * db
  let costs := if i % 100 == 0 then s.costs ++ [cost] else s.costs
  let iterations := if i % 100 == 0 then s.iterations ++ [i] else s.iterations
  .ok ⟨w, b, costs, iterations, some ⟨dw, db⟩⟩

/-- The loop of `optimize`, run over the index list `range(num_iterations)`. -/
def optFold (X Y : Mat) (learning_rate : ℝ) : List ℕ → OptState → Except NpErr OptState
  | [], s => .ok s
  | i :: is, s => optBody X Y learning_rate s i >>= optFold X Y learning_rate is

/-- Source lines 141-195, `optimize(w, b, X, Y, num_iterations, learning_rate)`.
After the loop the source builds `grads = {"dw": dw, "db": db}` from the
loop variables; when the loop ran zero times those names were never
bound and Python raises `NameError`, modelled by the `none` branch.
The `print_cost` parameter only controls console output and is omitted. -/
def optimize (w : Mat) (b : ℝ) (X Y : Mat) (num_iterations : ℕ)
    (learning_rate : ℝ) : Except NpErr (Params × Grads × List ℝ × List ℕ) := do
  let s ← optFold X Y learning_rate (List.range num_iterations) ⟨w, b, [], [], none⟩
  match s.lastGrads with
  | some g => .ok (⟨s.w, s.b⟩, g, s.costs, s.iterations)
  | none => .error .nameError

/-- Row-major flat view of an array, as used by `w.reshape(X.shape[0], 1)`. -/
def flatIdx (w : Mat) (i : ℕ) : ℝ := w.entry (i / w.cols) (i % w.cols)

/-- Source lines 198-232, `predict(w, b, X)`.  `w.reshape(X.shape[0], 1)`
raises `ValueError` unless `w` holds exactly `X.shape[0]` entries;
otherwise `A = sigmoid(np.dot(w.T, X) + b)` is computed (the reshape
makes that `np.dot` aligned by construction) and the loop overwrites
every column `j < A.shape[1] = m` of the zero-initialised `(1, m)`
prediction array with `1` if `A[0, j] > 0.5` else `0`. -/
def predict (w : Mat) (b : ℝ) (X : Mat) : Except NpErr Mat := do
  let m := X.cols
  if w.rows * w.cols = X.rows * 1 then
    let w2 : Mat := ⟨X.rows, 1, fun i _ => flatIdx w i⟩
    let wTX ← npDot w2.T X
    let A := sigmoidM (matAddScalar wTX b)
    .ok ⟨1, m, fun _ j => if j < m then (if 1 / 2 < A.entry 0 j then 1 else 0) else 0⟩
  else .error .shapeMismatch

/-- The record `model` is meant to return (`d` at source lines 272-279). -/
structure TrainedModel where
  costs : List ℝ
  Y_prediction_test : Mat
  Y_prediction_train : Mat
  w : Mat
  b : ℝ
  learning_rate : ℝ
  num_iterations : ℕ

/-- Python tuple unpacking `t1, …, tk = expr`: assigning a tuple of `src`
components to `tgt` target names succeeds only when the arities agree,
otherwise it raises `ValueError` ("too many values to unpack"). -/
def tupleUnpack (src tgt : ℕ) : Except NpErr Unit :=
  if src = tgt then .ok () else .error .unpackMismatch

/-- Source lines 235-319, `model(X_train, Y_train, X_test, Y_test,
num_iterations, learning_rate)`.  Line 258 reads
`parameters, grads, costs = optimize(...)`: `optimize` returns the
4-tuple `(params, grads, costs, iterations)`, so the assignment unpacks
four values into three targets.  Everything after that line — the two
`predict` calls, the accuracy printout, the learning-curve plot (which
would itself hit an unbound `iterations` name) and the demo-image
classification — is unreachable; the plotting and image I/O are external
collaborators and are not modelled. -/
def model (X_train Y_train X_test Y_test : Mat) (num_iterations : ℕ)
    (learning_rate : ℝ) : Except NpErr TrainedModel := do
  let (w0, b0) ← initialize_with_zeros (X_train.rows : ℤ)
  let r ← optimize w0 b0 X_train Y_train num_iterations learning_rate
  let _ ← tupleUnpack 4 3
  let parameters := r.1
  let w := parameters.w
  let b := parameters.b
  let Y_prediction_test ← predict w b X_test
  let Y_prediction_train ← predict w b X_train
  .ok ⟨r.2.2.1, Y_prediction_test, Y_prediction_train, w, b, learning_rate, num_iterations⟩

/-! ## Specification-side descriptions of the optimizer

The spec states the loop as: compute the gradients at the current
parameters, then `w ← w - learning_rate·dw`, `b ← b - learning_rate·db`.
The following pure definitions express the activation, the gradients,
the cost and that update step as direct functional forms; the theorems
below prove that the embedded `propagate`/`optimize` refine them. -/

/-- The activation `A = sigmoid(wᵗX + b)`. -/
def Aof (w : Mat) (b : ℝ) (X : Mat) : Mat :=
  sigmoidM (matAddScalar (dotU w.T X) b)

/-- The weight gradient `dw = (1/N)·X·(A-Y)ᵗ`. -/
def dwOf (w : Mat) (b : ℝ) (X Y : Mat) : Mat :=
  smul (1 / (X.cols : ℝ)) (dotU X (subU (Aof w b X) Y).T)

/-- The bias gradient `db = (1/N)·Σ(A-Y)`. -/
def dbOf (w : Mat) (b : ℝ) (X Y : Mat) : ℝ :=
  1 / (X.cols : ℝ) * matSum (subU (Aof w b X) Y)

/-- The cross-entropy cost `-(1/N)·Σ[Y·log A + (1-Y)·log(1-A)]`. -/
def costOf (w : Mat) (b : ℝ) (X Y : Mat) : ℝ :=
  -1 / (X.cols : ℝ) *
    matSum (addU (mulU Y (matLog (Aof w b X)))
                 (mulU (scalarSub 1 Y) (matLog (scalarSub 1 (Aof w b X)))))

/-- The gradient pair at given parameters. -/
def gradsOf (w : Mat) (b : ℝ) (X Y : Mat) : Grads :=
  ⟨dwOf w b X Y, dbOf w b X Y⟩

/-- One spec-side gradient-descent step on the parameter pair. -/
def gdStep (X Y : Mat) (learning_rate : ℝ) (p : Mat × ℝ) : Mat × ℝ :=
  (subU p.1 (smul learning_rate (dwOf p.1 p.2 X Y)),
   p.2 - learning_rate * dbOf p.1 p.2 X Y)

/-- The cost values the loop appends while consuming the index list `L`
from parameter state `p`: the cost recorded at index `i` is the one
`propagate` computed from the parameters as they stood at the start of
that iteration. -/
def histC (X Y : Mat) (learning_rate : ℝ) : List ℕ → Mat × ℝ → List ℝ
  | [], _ => []
  | i :: is, p =>
    (if i % 100 == 0 then [costOf p.1 p.2 X Y] else []) ++
      histC X Y learning_rate is (gdStep X Y learning_rate p)

/-- The value of the loop's `grads` binding after consuming the index
list `L` from parameter state `p` (its initial value `g` survives only
when `L` is empty). -/
def lastG (X Y : Mat) (learning_rate : ℝ) : List ℕ → Mat × ℝ → Option Grads → Option Grads
  | [], _, g => g
  | _ :: is, p, _ =>
    lastG X Y learning_rate is (gdStep X Y learning_rate p) (some (gradsOf p.1 p.2 X Y))

/-! ## Heap view of the core operations

The frame claim — no core operation mutates a caller's array — is about
aliasing, so it needs arrays as references into a store.  A `Heap` is
the list of allocated ndarrays, addressed by position; every numpy
expression in the source allocates a fresh result array (`w -
learning_rate * dw` rebinds `w` to such a fresh array), and the source
contains no in-place array operation (`+=`, slice assignment, `out=`),
so the only heap effect available to the translation is allocation. -/

/-- The array store: allocated ndarrays addressed by position. -/
def Heap : Type := List Mat

/-- Read the array at address `r` (junk outside the allocated range). -/
def Heap.get (h : Heap) (r : ℕ) : Mat := List.getD h r ⟨0, 0, fun _ _ => 0⟩

/-- Number of allocated arrays. -/
def Heap.size (h : Heap) : ℕ := List.length h

/-- Allocate a fresh array, returning the new heap and its address. -/
def alloc (h : Heap) (m : Mat) : Heap × ℕ := (List.append h [m], Heap.size h)

/-- Heap view of `propagate`: the argument arrays are read from the
heap, the body computes as in `propagate`, and the arrays the body
creates are fresh allocations.  Only `A` and `dw` are bound to names in
the source (the other temporaries are allocated and immediately
consumed, which touches existing cells the same way: not at all), and
only `dw` outlives the call, inside the returned gradient dictionary. -/
def propagateH (h : Heap) (rw : ℕ) (b : ℝ) (rX rY : ℕ) :
    Except NpErr (Heap × ℕ × ℝ × ℝ) := do
  let (g, cost) ← propagate (h.get rw) b (h.get rX) (h.get rY)
  let p1 := alloc h (Aof (h.get rw) b (h.get rX))
  let p2 := alloc p1.1 g.dw
  .ok (p2.1, p2.2, g.db, cost)

/-- Heap view of `optimize`'s loop: each iteration runs `propagateH`,
then `w = w - learning_rate * dw` allocates a fresh array from the
current `w` and `dw` cells and rebinds the name `w` to its address.  The
cost/iteration bookkeeping involves only Python scalars and is elided
here (it is covered by the value-level `optimize`). -/
def optFoldH (rX rY : ℕ) (learning_rate : ℝ) :
    List ℕ → Heap → ℕ → ℝ → Option ℕ → Except NpErr (Heap × ℕ × ℝ × Option ℕ)
  | [], h, rw, b, rdw => .ok (h, rw, b, rdw)
  | _ :: is, h, rw, b, _ => do
    let (h1, rdw, db, _cost) ← propagateH h rw b rX rY
    let p := alloc h1 (subU (h1.get rw) (smul learning_rate (h1.get rdw)))
    optFoldH rX rY learning_rate is p.1 p.2 (b - learning_rate * db) (some rdw)

/-- Heap view of `optimize`: run the loop over `range(num_iterations)`;
reading the loop's `dw` binding after a zero-iteration loop is the same
`NameError` as in `optimize`. -/
def optimizeH (h : Heap) (rw : ℕ) (b : ℝ) (rX rY : ℕ) (num_iterations : ℕ)
    (learning_rate : ℝ) : Except NpErr (Heap × ℕ × ℝ) := do
  let (h1, rw1, b1, rdw) ←
    optFoldH rX rY learning_rate (List.range num_iterations) h rw b none
  match rdw with
  | some _ => .ok (h1, rw1, b1)
  | none => .error .nameError

/-- The heap after a heap-returning computation: the final heap on
success, the starting heap if the computation raised. -/
def heapOf {α : Type} (r : Except NpErr (Heap × α)) (h : Heap) : Heap :=
  match r with
  | .ok (h1, _) => h1
  | .error _ => h

/-- `h'` extends `h`: every already-allocated cell is unchanged. -/
def HeapExt (h h' : Heap) : Prop :=
  Heap.size h ≤ Heap.size h' ∧ ∀ r < Heap.size h, h'.get r = h.get r

/-- Concrete `(1,1)` zero array used by the concrete instantiations. -/
def zMat11 : Mat := ⟨1, 1, fun _ _ => 0⟩

/-- Concrete `(3,1)` zero array (the spec's shape-violation scenario). -/
def zMat31 : Mat := ⟨3, 1, fun _ _ => 0⟩

/-- Concrete `(2,5)` zero array (the spec's shape-violation scenario). -/
def zMat25 : Mat := ⟨2, 5, fun _ _ => 0⟩

/-- Concrete `(1,5)` zero array (labels for the shape-violation scenario). -/
def zMat15 : Mat := ⟨1, 5, fun _ _ => 0⟩

end

/-! ## Basic lemmas about the embedded numpy operations -/

@[simp] theorem T_rows (a : Mat) : a.T.rows = a.cols := rfl

@[simp] theorem T_cols (a : Mat) : a.T.cols = a.rows := rfl

@[simp] theorem T_entry (a : Mat) (i j : ℕ) : a.T.entry i j = a.entry j i := rfl

@[simp] theorem dotU_rows (a b : Mat) : (dotU a b).rows = a.rows := rfl

@[simp] theorem dotU_cols (a b : Mat) : (dotU a b).cols = b.cols := rfl

@[simp] theorem subU_rows (a b : Mat) : (subU a b).rows = a.rows := rfl

@[simp] theorem subU_cols (a b : Mat) : (subU a b).cols = a.cols := rfl

@[simp] theorem addU_rows (a b : Mat) : (addU a b).rows = a.rows := rfl

@[simp] theorem addU_cols (a b : Mat) : (addU a b).cols = a.cols := rfl

@[simp] theorem mulU_rows (a b : Mat) : (mulU a b).rows = a.rows := rfl

@[simp] theorem mulU_cols (a b : Mat) : (mulU a b).cols = a.cols := rfl

@[simp] theorem map_rows (f : ℝ → ℝ) (a : Mat) : (a.map f).rows = a.rows := rfl

@[simp] theorem map_cols (f : ℝ → ℝ) (a : Mat) : (a.map f).cols = a.cols := rfl

@[simp] theorem matAddScalar_rows (a : Mat) (c : ℝ) : (matAddScalar a c).rows = a.rows := rfl

@[simp] theorem matAddScalar_cols (a : Mat) (c : ℝ) : (matAddScalar a c).cols = a.cols := rfl

@[simp] theorem scalarSub_rows (c : ℝ) (a : Mat) : (scalarSub c a).rows = a.rows := rfl

@[simp] theorem scalarSub_cols (c : ℝ) (a : Mat) : (scalarSub c a).cols = a.cols := rfl

@[simp] theorem smul_rows (c : ℝ) (a : Mat) : (smul c a).rows = a.rows := rfl

@[simp] theorem smul_cols (c : ℝ) (a : Mat) : (smul c a).cols = a.cols := rfl

@[simp] theorem matLog_rows (a : Mat) : (matLog a).rows = a.rows := rfl

@[simp] theorem matLog_cols (a : Mat) : (matLog a).cols = a.cols := rfl

@[simp] theorem sigmoidM_rows (a : Mat) : (sigmoidM a).rows = a.rows := rfl

@[simp] theorem sigmoidM_cols (a : Mat) : (sigmoidM a).cols = a.cols := rfl

@[simp] theorem ok_bind {α β : Type} (a : α) (f : α → Except NpErr β) :
    (Except.ok a >>= f) = f a := rfl

@[simp] theorem error_bind {α β : Type} (e : NpErr) (f : α → Except NpErr β) :
    ((Except.error e : Except NpErr α) >>= f) = .error e := rfl

theorem npDot_ok (a b : Mat) (h : a.cols = b.rows) : npDot a b = .ok (dotU a b) := by
  simp [npDot, h]

theorem npSub_ok (a b : Mat) (h1 : a.rows = b.rows) (h2 : a.cols = b.cols) :
    npSub a b = .ok (subU a b) := by
  simp [npSub, h1, h2]

theorem npAdd_ok (a b : Mat) (h1 : a.rows = b.rows) (h2 : a.cols = b.cols) :
    npAdd a b = .ok (addU a b) := by
  simp [npAdd, h1, h2]

theorem npMul_ok (a b : Mat) (h1 : a.rows = b.rows) (h2 : a.cols = b.cols) :
    npMul a b = .ok (mulU a b) := by
  simp [npMul, h1, h2]

/-- Under the documented well-shapedness preconditions, `propagate`
succeeds and returns exactly the spec-side gradients and cost. -/
theorem propagate_ok (w : Mat) (b : ℝ) (X Y : Mat)
    (hr : w.rows = X.rows) (hc : w.cols = 1) (hYr : Y.rows = 1) (hYc : Y.cols = X.cols) :
    propagate w b X Y = .ok (gradsOf w b X Y, costOf w b X Y) := by
  simp [propagate, npDot_ok, npMul_ok, npAdd_ok, npSub_ok, hr, hc, hYr, hYc,
    gradsOf, dwOf, dbOf, costOf, Aof]

@[simp] theorem dwOf_rows (w : Mat) (b : ℝ) (X Y : Mat) : (dwOf w b X Y).rows = X.rows := rfl

@[simp] theorem dwOf_cols (w : Mat) (b : ℝ) (X Y : Mat) : (dwOf w b X Y).cols = w.cols := rfl

@[simp] theorem gradsOf_dw (w : Mat) (b : ℝ) (X Y : Mat) : (gradsOf w b X Y).dw = dwOf w b X Y := rfl

@[simp] theorem gradsOf_db (w : Mat) (b : ℝ) (X Y : Mat) : (gradsOf w b X Y).db = dbOf w b X Y := rfl

@[simp] theorem gdStep_rows (X Y : Mat) (lr : ℝ) (p : Mat × ℝ) :
    (gdStep X Y lr p).1.rows = p.1.rows := rfl

@[simp] theorem gdStep_cols (X Y : Mat) (lr : ℝ) (p : Mat × ℝ) :
    (gdStep X Y lr p).1.cols = p.1.cols := rfl

/-- The loop of `optimize`, run over any index list from a well-shaped
state, succeeds and computes the iterated spec-side update step, with
the bookkeeping lists extended as described by `histC` / `filter` and
the `grads` binding described by `lastG`. -/
theorem optFold_eq (X Y : Mat) (lr : ℝ) (hYr : Y.rows = 1) (hYc : Y.cols = X.cols)
    (L : List ℕ) :
    ∀ (p : Mat × ℝ) (cs : List ℝ) (its : List ℕ) (g : Option Grads),
      p.1.rows = X.rows → p.1.cols = 1 →
      optFold X Y lr L ⟨p.1, p.2, cs, its, g⟩ =
        .ok ⟨((gdStep X Y lr)^[L.length] p).1, ((gdStep X Y lr)^[L.length] p).2,
             cs ++ histC X Y lr L p,
             its ++ List.filter (fun i => i % 100 == 0) L,
             lastG X Y lr L p g⟩ := by
  induction L with
  | nil =>
    intro p cs its g h1 h2
    simp [optFold, histC, lastG]
  | cons i is ih =>
    intro p cs its g h1 h2
    rw [optFold, optBody, propagate_ok p.1 p.2 X Y h1 h2 hYr hYc]
    simp only [ok_bind, gradsOf_dw, gradsOf_db]
    rw [npSub_ok p.1 _ (by simp [h1]) (by simp)]
    simp only [ok_bind]
    rw [show subU p.1 (smul lr (dwOf p.1 p.2 X Y)) = (gdStep X Y lr p).1 from rfl,
        show p.2 - lr * dbOf p.1 p.2 X Y = (gdStep X Y lr p).2 from rfl]
    rw [ih (gdStep X Y lr p) _ _ _ (by simp [h1]) (by simp [h2])]
    rw [List.length_cons, Function.iterate_succ_apply]
    have hhist : histC X Y lr (i :: is) p =
        (if i % 100 == 0 then [costOf p.1 p.2 X Y] else []) ++
          histC X Y lr is (gdStep X Y lr p) := rfl
    have hlast : lastG X Y lr (i :: is) p g =
        lastG X Y lr is (gdStep X Y lr p) (some (gradsOf p.1 p.2 X Y)) := rfl
    rw [hhist, hlast, List.filter_cons]
    cases h100 : (i % 100 == 0) <;> simp [h100, gradsOf]

/-- After at least one iteration, the loop's `grads` binding holds the
gradients computed at the start of the last iteration. -/
theorem lastG_cons (X Y : Mat) (lr : ℝ) (is : List ℕ) :
    ∀ (i : ℕ) (p : Mat × ℝ) (g : Option Grads),
      lastG X Y lr (i :: is) p g =
        some (gradsOf ((gdStep X Y lr)^[is.length] p).1
                      ((gdStep X Y lr)^[is.length] p).2 X Y) := by
  induction is with
  | nil => intro i p g; simp [lastG]
  | cons j js ih =>
    intro i p g
    rw [show lastG X Y lr (i :: j :: js) p g =
          lastG X Y lr (j :: js) (gdStep X Y lr p) (some (gradsOf p.1 p.2 X Y)) from rfl]
    rw [ih j (gdStep X Y lr p) _]
    rw [List.length_cons, Function.iterate_succ_apply]

/-- The recorded costs over a contiguous index range are exactly the
spec-side costs at the parameters reached by the corresponding number of
update steps. -/
theorem histC_range' (X Y : Mat) (lr : ℝ) (p : Mat × ℝ) :
    ∀ (k s : ℕ),
      histC X Y lr (List.range' s k) ((gdStep X Y lr)^[s] p) =
        List.map (fun i => costOf ((gdStep X Y lr)^[i] p).1 ((gdStep X Y lr)^[i] p).2 X Y)
          (List.filter (fun i => i % 100 == 0) (List.range' s k)) := by
  intro k
  induction k with
  | zero => intro s; simp [histC]
  | succ k ih =>
    intro s
    rw [show List.range' s (k + 1) = s :: List.range' (s + 1) k from rfl]
    rw [show histC X Y lr (s :: List.range' (s + 1) k) ((gdStep X Y lr)^[s] p) =
          (if s % 100 == 0 then [costOf ((gdStep X Y lr)^[s] p).1 ((gdStep X Y lr)^[s] p).2 X Y] else []) ++
            histC X Y lr (List.range' (s + 1) k) (gdStep X Y lr ((gdStep X Y lr)^[s] p)) from rfl]
    rw [show gdStep X Y lr ((gdStep X Y lr)^[s] p) = (gdStep X Y lr)^[s + 1] p from
          (Function.iterate_succ_apply' (gdStep X Y lr) s p).symm]
    rw [ih (s + 1), List.filter_cons]
    cases h100 : (s % 100 == 0) <;> simp [h100]

/-- Full characterisation of a successful `optimize` run with at least
one iteration: the returned parameters are the spec-side update step
iterated `m + 1` times, the returned gradients are those of the last
iteration, and the bookkeeping lists are as recorded by the loop. -/
theorem optimize_spec (w : Mat) (b : ℝ) (X Y : Mat) (m : ℕ) (lr : ℝ)
    (hr : w.rows = X.rows) (hc : w.cols = 1) (hYr : Y.rows = 1) (hYc : Y.cols = X.cols) :
    optimize w b X Y (m + 1) lr =
      .ok (⟨((gdStep X Y lr)^[m + 1] (w, b)).1, ((gdStep X Y lr)^[m + 1] (w, b)).2⟩,
           gradsOf ((gdStep X Y lr)^[m] (w, b)).1 ((gdStep X Y lr)^[m] (w, b)).2 X Y,
           histC X Y lr (List.range (m + 1)) (w, b),
           List.filter (fun i => i % 100 == 0) (List.range (m + 1))) := by
  rw [optimize]
  rw [show (⟨w, b, [], [], none⟩ : OptState) =
        ⟨((w, b) : Mat × ℝ).1, ((w, b) : Mat × ℝ).2, [], [], none⟩ from rfl]
  rw [optFold_eq X Y lr hYr hYc (List.range (m + 1)) (w, b) [] [] none hr hc]
  simp only [ok_bind, List.length_range, List.nil_append]
  rw [show List.range (m + 1) = 0 :: List.range' 1 m by
        rw [List.range_eq_range']
        rfl]
  rw [lastG_cons X Y lr (List.range' 1 m) 0 (w, b) none]
  simp [List.length_range']

/-- In exact arithmetic, `a - 0 * d` is `a`, entrywise and hence as an array. -/
theorem subU_smul_zero (a d : Mat) : subU a (smul 0 d) = a := by
  cases a with
  | mk r c e =>
    refine congrArg (Mat.mk r c) ?_
    funext i j
    show e i j - 0 * d.entry i j = e i j
    ring

/-- With `learning_rate = 0` the update step is the identity on the
parameter pair. -/
theorem gdStep_zero (X Y : Mat) (p : Mat × ℝ) : gdStep X Y 0 p = p := by
  obtain ⟨w, b⟩ := p
  unfold gdStep
  rw [subU_smul_zero]
  simp

/-! ## Heap-extension lemmas -/

theorem get_alloc (h : Heap) (m : Mat) (r : ℕ) (hr : r < Heap.size h) :
    Heap.get (alloc h m).1 r = Heap.get h r := by
  show List.getD (List.append h [m]) r ⟨0, 0, fun _ _ => 0⟩ = List.getD h r ⟨0, 0, fun _ _ => 0⟩
  exact List.getD_append h [m] _ r hr

theorem heapExt_refl (h : Heap) : HeapExt h h := ⟨le_refl _, fun _ _ => rfl⟩

theorem heapExt_trans {h1 h2 h3 : Heap} (a : HeapExt h1 h2) (b : HeapExt h2 h3) :
    HeapExt h1 h3 :=
  ⟨le_trans a.1 b.1, fun r hr => (b.2 r (lt_of_lt_of_le hr a.1)).trans (a.2 r hr)⟩

theorem heapExt_alloc (h : Heap) (m : Mat) : HeapExt h (alloc h m).1 := by
  constructor
  · show Heap.size h ≤ Heap.size (List.append h [m])
    simp [Heap.size]
  · exact fun r hr => get_alloc h m r hr

/-- A successful `propagateH` run only allocates: the heap it returns
extends the heap it was given. -/
theorem propagateH_ext (h : Heap) (rw : ℕ) (b : ℝ) (rX rY : ℕ)
    (res : Heap × ℕ × ℝ × ℝ) (hres : propagateH h rw b rX rY = .ok res) :
    HeapExt h res.1 := by
  unfold propagateH at hres
  cases hp : propagate (h.get rw) b (h.get rX) (h.get rY) with
  | error e => rw [hp] at hres; simp at hres
  | ok gc =>
    rw [hp] at hres
    simp only [ok_bind] at hres
    injection hres with hres1
    rw [← hres1]
    exact heapExt_trans (heapExt_alloc h _) (heapExt_alloc _ _)

/-- The heap-view optimizer loop only allocates. -/
theorem optFoldH_ext (rX rY : ℕ) (lr : ℝ) (L : List ℕ) :
    ∀ (h : Heap) (rw : ℕ) (b : ℝ) (g : Option ℕ) (res : Heap × ℕ × ℝ × Option ℕ),
      optFoldH rX rY lr L h rw b g = .ok res → HeapExt h res.1 := by
  induction L with
  | nil =>
    intro h rw b g res hres
    unfold optFoldH at hres
    injection hres with hres1
    rw [← hres1]
    exact heapExt_refl h
  | cons i is ih =>
    intro h rw b g res hres
    unfold optFoldH at hres
    cases hp : propagateH h rw b rX rY with
    | error e => rw [hp] at hres; simp at hres
    | ok t =>
      obtain ⟨h1, rdw, db, c⟩ := t
      rw [hp] at hres
      simp only [ok_bind] at hres
      refine heapExt_trans (propagateH_ext h rw b rX rY (h1, rdw, db, c) hp)
        (heapExt_trans (heapExt_alloc h1 _) (ih _ _ _ _ _ hres))

/-! ## Claim theorems -/

/-- C9: for every finite real `z`, `sigmoid z = 1/(1+exp(-z))` lies
strictly in `(0,1)`, `sigmoid 0` equals `0.5` exactly, `sigmoid` is
monotonically increasing (stated for an arbitrary pair `z < w`), and
`sigmoid (-z) = 1 - sigmoid z`. -/
theorem sigmoid_range_mono_symmetry (z w : ℝ) (hzw : z < w) :
    (0 < sigmoid z ∧ sigmoid z < 1) ∧ sigmoid 0 = 1 / 2 ∧
      sigmoid z < sigmoid w ∧ sigmoid (-z) = 1 - sigmoid z := by
  have hden : ∀ t : ℝ, 0 < 1 + Real.exp (-t) := fun t => by positivity
  refine ⟨⟨?_, ?_⟩, ?_, ?_, ?_⟩
  · exact div_pos one_pos (hden z)
  · rw [sigmoid, div_lt_one (hden z)]
    linarith [Real.exp_pos (-z)]
  · rw [sigmoid]
    norm_num
  · rw [sigmoid, sigmoid]
    refine one_div_lt_one_div_of_lt (hden w) ?_
    have := Real.exp_lt_exp.mpr (neg_lt_neg hzw)
    linarith
  · rw [sigmoid, sigmoid, neg_neg, Real.exp_neg]
    have he : Real.exp z ≠ 0 := (Real.exp_pos z).ne'
    have h1 : (1 : ℝ) + Real.exp z ≠ 0 := by positivity
    have h2 : (1 : ℝ) + (Real.exp z)⁻¹ ≠ 0 := by positivity
    field_simp
    ring

/-- C9 witness at `z = 0`, `w = 1`. -/
theorem sigmoid_range_mono_symmetry_witness :
    (0 < sigmoid 0 ∧ sigmoid 0 < 1) ∧ sigmoid 0 = 1 / 2 ∧
      sigmoid 0 < sigmoid 1 ∧ sigmoid (-0) = 1 - sigmoid 0 :=
  sigmoid_range_mono_symmetry 0 1 zero_lt_one

/-- C6 (amended): `initialize_with_zeros dim` fails — with numpy's
negative-dimension `ValueError`, raised by `np.zeros` — exactly when
`dim < 0`; for every `dim ≥ 0`, including `dim = 0`, it succeeds and
returns `w` of shape `(dim, 1)` with every entry `0` and `b = 0`. -/
theorem initialize_with_zeros_sign_spec (dim : ℤ) :
    (dim < 0 → initialize_with_zeros dim = .error .negativeDimension) ∧
    (0 ≤ dim → initialize_with_zeros dim = .ok (⟨dim.toNat, 1, fun _ _ => 0⟩, 0)) := by
  constructor
  · intro h
    simp [initialize_with_zeros, h]
  · intro h
    simp [initialize_with_zeros, not_lt.mpr h, Int.toNat_of_nonneg h]

/-- C6 witness at `dim = -1` (failure) and `dim = 2` (success). -/
theorem initialize_with_zeros_sign_spec_witness :
    initialize_with_zeros (-1) = .error .negativeDimension ∧
      initialize_with_zeros 2 = .ok (⟨(2 : ℤ).toNat, 1, fun _ _ => 0⟩, 0) :=
  ⟨(initialize_with_zeros_sign_spec (-1)).1 (by decide),
   (initialize_with_zeros_sign_spec 2).2 (by decide)⟩

/-- C6 counterexample to the claim as stated: at `dim = 0` the function
does not fail — `np.zeros((0, 1))` succeeds, both asserts pass, and an
empty weight array is returned. -/
theorem initialize_with_zeros_dim_zero_ok :
    initialize_with_zeros 0 = .ok (⟨0, 1, fun _ _ => 0⟩, 0) := rfl

/-- C7: `propagate` called with a weight vector whose row count differs
from `X`'s row count fails at `np.dot(w.T, X)` with a shape-mismatch
`ValueError` rather than computing a result. -/
theorem propagate_row_mismatch_fails (w : Mat) (b : ℝ) (X Y : Mat)
    (h : w.rows ≠ X.rows) : propagate w b X Y = .error .shapeMismatch := by
  rw [propagate]
  rw [show npDot w.T X = .error .shapeMismatch by simp [npDot, h]]
  rfl

/-- C7 witness: the spec's scenario, `w` of shape `(3,1)` and `X` of
shape `(2,5)`. -/
theorem propagate_row_mismatch_fails_witness :
    propagate zMat31 0 zMat25 zMat15 = .error .shapeMismatch :=
  propagate_row_mismatch_fails zMat31 0 zMat25 zMat15 (by decide)

/-- C3: for well-shaped inputs (`w : (F,1)`, `X : (F,N)` with `N ≥ 1`,
`Y : (1,N)`), `propagate` returns `dw = (1/N)·X·(A-Y)ᵗ` of shape `(F,1)`,
`db = (1/N)·Σ(A-Y)` and `cost = -(1/N)·Σ[Y·log A + (1-Y)·log(1-A)]`,
where `A = sigmoid(wᵗX + b)` elementwise — all stated here as explicit
entrywise sums. -/
theorem propagate_gradient_cost_formulas (w : Mat) (b : ℝ) (X Y : Mat)
    (hr : w.rows = X.rows) (hc : w.cols = 1) (hYr : Y.rows = 1) (hYc : Y.cols = X.cols)
    (hN : 1 ≤ X.cols) :
    ∃ g c, propagate w b X Y = .ok (g, c) ∧
      g.dw.rows = X.rows ∧ g.dw.cols = 1 ∧
      (∀ i, g.dw.entry i 0 =
        1 / (X.cols : ℝ) * ∑ j in Finset.range X.cols,
          X.entry i j *
            (sigmoid ((∑ k in Finset.range X.rows, w.entry k 0 * X.entry k j) + b) -
              Y.entry 0 j)) ∧
      g.db = 1 / (X.cols : ℝ) * ∑ j in Finset.range X.cols,
          (sigmoid ((∑ k in Finset.range X.rows, w.entry k 0 * X.entry k j) + b) -
            Y.entry 0 j) ∧
      c = -(1 / (X.cols : ℝ)) * ∑ j in Finset.range X.cols,
          (Y.entry 0 j *
              Real.log (sigmoid ((∑ k in Finset.range X.rows, w.entry k 0 * X.entry k j) + b)) +
            (1 - Y.entry 0 j) *
              Real.log (1 - sigmoid ((∑ k in Finset.range X.rows, w.entry k 0 * X.entry k j) + b))) := by
  refine ⟨gradsOf w b X Y, costOf w b X Y, propagate_ok w b X Y hr hc hYr hYc, by simp,
    by simp [hc], ?_, ?_, ?_⟩
  · intro i
    simp [gradsOf, dwOf, Aof, smul, dotU, subU, sigmoidM, Mat.map, matAddScalar, Mat.T, hr]
  · simp [gradsOf, dbOf, Aof, subU, sigmoidM, Mat.map, matAddScalar, dotU, Mat.T, matSum,
      hc, hYr, hYc, hr, Finset.sum_range_one]
  · simp [costOf, Aof, addU, mulU, scalarSub, matLog, sigmoidM, Mat.map, matAddScalar, dotU,
      Mat.T, matSum, hc, hYr, hYc, hr, Finset.sum_range_one]
    ring

/-- C3 witness at `w = X = Y = ` the `(1,1)` zero array, `b = 0`. -/
theorem propagate_gradient_cost_formulas_witness :
    ∃ g c, propagate zMat11 0 zMat11 zMat11 = .ok (g, c) ∧
      g.dw.rows = zMat11.rows ∧ g.dw.cols = 1 ∧
      (∀ i, g.dw.entry i 0 =
        1 / (zMat11.cols : ℝ) * ∑ j in Finset.range zMat11.cols,
          zMat11.entry i j *
            (sigmoid ((∑ k in Finset.range zMat11.rows, zMat11.entry k 0 * zMat11.entry k j) + 0) -
              zMat11.entry 0 j)) ∧
      g.db = 1 / (zMat11.cols : ℝ) * ∑ j in Finset.range zMat11.cols,
          (sigmoid ((∑ k in Finset.range zMat11.rows, zMat11.entry k 0 * zMat11.entry k j) + 0) -
            zMat11.entry 0 j) ∧
      c = -(1 / (zMat11.cols : ℝ)) * ∑ j in Finset.range zMat11.cols,
          (zMat11.entry 0 j *
              Real.log (sigmoid ((∑ k in Finset.range zMat11.rows, zMat11.entry k 0 * zMat11.entry k j) + 0)) +
            (1 - zMat11.entry 0 j) *
              Real.log (1 - sigmoid ((∑ k in Finset.range zMat11.rows, zMat11.entry k 0 * zMat11.entry k j) + 0))) :=
  propagate_gradient_cost_formulas zMat11 0 zMat11 zMat11 rfl rfl rfl rfl (by decide)

/-- C2 (amended): for every `num_iterations ≥ 1` and well-shaped inputs,
`optimize` performs exactly `num_iterations` sequential gradient-descent
iterations — each computing `propagate` at the current parameters and
then updating `w ← w - learning_rate·dw`, `b ← b - learning_rate·db`,
i.e. the iterated `gdStep`, with no convergence check or early stopping
— and returns the parameters obtained after the last update.  (At
`num_iterations = 0` the code does not return the inputs unchanged: see
the counterexample.) -/
theorem optimize_runs_exact_iterations (w : Mat) (b : ℝ) (X Y : Mat) (n : ℕ) (lr : ℝ)
    (hn : 1 ≤ n) (hr : w.rows = X.rows) (hc : w.cols = 1)
    (hYr : Y.rows = 1) (hYc : Y.cols = X.cols) :
    ∃ g cs its, optimize w b X Y n lr =
      .ok (⟨((gdStep X Y lr)^[n] (w, b)).1, ((gdStep X Y lr)^[n] (w, b)).2⟩, g, cs, its) := by
  obtain ⟨m, rfl⟩ : ∃ m, n = m + 1 := ⟨n - 1, by omega⟩
  exact ⟨_, _, _, optimize_spec w b X Y m lr hr hc hYr hYc⟩

/-- C2 witness at the `(1,1)` zero arrays, one iteration, `lr = 1`. -/
theorem optimize_runs_exact_iterations_witness :
    ∃ g cs its, optimize zMat11 0 zMat11 zMat11 1 1 =
      .ok (⟨((gdStep zMat11 zMat11 1)^[1] (zMat11, 0)).1,
            ((gdStep zMat11 zMat11 1)^[1] (zMat11, 0)).2⟩, g, cs, its) :=
  optimize_runs_exact_iterations zMat11 0 zMat11 zMat11 1 1 (by decide) rfl rfl rfl rfl

/-- C2 counterexample to the claim as stated: at `num_iterations = 0`
the loop body never runs, so the names `dw`, `db` are unbound when the
source builds the returned `grads` dictionary and `optimize` raises
`NameError` instead of returning the unchanged inputs. -/
theorem optimize_zero_iterations_name_error :
    optimize zMat11 0 zMat11 zMat11 0 1 = .error .nameError := rfl

/-- C5: for every `num_iterations ≥ 1` and well-shaped inputs, the cost
history returned by `optimize` records exactly the iterations
`i ∈ [0, num_iterations)` with `i % 100 == 0`, in strictly increasing
order, and the cost paired with iteration `i` is the one `propagate`
computed from the parameters as they stood at the start of iteration `i`
(i.e. after `i` update steps), before that iteration's update. -/
theorem optimize_cost_history (w : Mat) (b : ℝ) (X Y : Mat) (n : ℕ) (lr : ℝ)
    (hn : 1 ≤ n) (hr : w.rows = X.rows) (hc : w.cols = 1)
    (hYr : Y.rows = 1) (hYc : Y.cols = X.cols) :
    (∃ p g, optimize w b X Y n lr =
      .ok (p, g,
        List.map (fun i => costOf ((gdStep X Y lr)^[i] (w, b)).1
                                  ((gdStep X Y lr)^[i] (w, b)).2 X Y)
          (List.filter (fun i => i % 100 == 0) (List.range n)),
        List.filter (fun i => i % 100 == 0) (List.range n))) ∧
      List.Pairwise (· < ·) (List.filter (fun i => i % 100 == 0) (List.range n)) := by
  constructor
  · obtain ⟨m, rfl⟩ : ∃ m, n = m + 1 := ⟨n - 1, by omega⟩
    refine ⟨⟨((gdStep X Y lr)^[m + 1] (w, b)).1, ((gdStep X Y lr)^[m + 1] (w, b)).2⟩,
      gradsOf ((gdStep X Y lr)^[m] (w, b)).1 ((gdStep X Y lr)^[m] (w, b)).2 X Y, ?_⟩
    have hhist := histC_range' X Y lr (w, b) (m + 1) 0
    rw [Function.iterate_zero_apply] at hhist
    rw [optimize_spec w b X Y m lr hr hc hYr hYc, List.range_eq_range', hhist]
  · exact (List.pairwise_lt_range n).sublist (List.filter_sublist _)

/-- C5 witness at the `(1,1)` zero arrays, one iteration, `lr = 1`. -/
theorem optimize_cost_history_witness :
    (∃ p g, optimize zMat11 0 zMat11 zMat11 1 1 =
      .ok (p, g,
        List.map (fun i => costOf ((gdStep zMat11 zMat11 1)^[i] (zMat11, 0)).1
                                  ((gdStep zMat11 zMat11 1)^[i] (zMat11, 0)).2 zMat11 zMat11)
          (List.filter (fun i => i % 100 == 0) (List.range 1)),
        List.filter (fun i => i % 100 == 0) (List.range 1))) ∧
      List.Pairwise (· < ·) (List.filter (fun i => i % 100 == 0) (List.range 1)) :=
  optimize_cost_history zMat11 0 zMat11 zMat11 1 1 (by decide) rfl rfl rfl rfl

/-- C8: `optimize` with `learning_rate = 0` does not raise any
hyperparameter error; it is a no-op with respect to the parameters — in
exact arithmetic each update subtracts `0·dw` and `0·db`, so after
running all the iterations the returned `w` and `b` equal the values
passed in.  (Stated for `num_iterations ≥ 1`, where the run completes;
a zero-iteration run raises `NameError` independently of the learning
rate.) -/
theorem optimize_zero_learning_rate_noop (w : Mat) (b : ℝ) (X Y : Mat) (n : ℕ)
    (hn : 1 ≤ n) (hr : w.rows = X.rows) (hc : w.cols = 1)
    (hYr : Y.rows = 1) (hYc : Y.cols = X.cols) :
    ∃ g cs its, optimize w b X Y n 0 = .ok (⟨w, b⟩, g, cs, its) := by
  obtain ⟨m, rfl⟩ : ∃ m, n = m + 1 := ⟨n - 1, by omega⟩
  have hfix : ∀ k, (gdStep X Y 0)^[k] (w, b) = (w, b) :=
    fun k => Function.iterate_fixed (gdStep_zero X Y (w, b)) k
  exact ⟨gradsOf w b X Y,
    histC X Y 0 (List.range (m + 1)) (w, b),
    List.filter (fun i => i % 100 == 0) (List.range (m + 1)),
    by rw [optimize_spec w b X Y m 0 hr hc hYr hYc, hfix, hfix]⟩

/-- C8 witness at the `(1,1)` zero arrays, one iteration. -/
theorem optimize_zero_learning_rate_noop_witness :
    ∃ g cs its, optimize zMat11 0 zMat11 zMat11 1 0 = .ok (⟨zMat11, 0⟩, g, cs, its) :=
  optimize_zero_learning_rate_noop zMat11 0 zMat11 zMat11 1 (by decide) rfl rfl rfl rfl

/-- C4: for every `w` with exactly `X.rows` total entries, `predict`
returns a `(1, N)` array whose `i`-th entry is `1` if `A[0,i] > 0.5` and
`0` otherwise, where `A = sigmoid(wᵗX + b)` (with `w` reshaped to
`(F, 1)`); an activation of exactly `0.5` yields prediction `0`, and
every output entry is `0` or `1`. -/
theorem predict_threshold_behavior (w : Mat) (b : ℝ) (X : Mat)
    (hw : w.rows * w.cols = X.rows) :
    ∃ P, predict w b X = .ok P ∧ P.rows = 1 ∧ P.cols = X.cols ∧
      ∀ i < X.cols,
        (P.entry 0 i =
          if 1 / 2 < sigmoid ((∑ k in Finset.range X.rows, flatIdx w k * X.entry k i) + b)
          then 1 else 0) ∧
        (sigmoid ((∑ k in Finset.range X.rows, flatIdx w k * X.entry k i) + b) = 1 / 2 →
          P.entry 0 i = 0) ∧
        (P.entry 0 i = 0 ∨ P.entry 0 i = 1) := by
  have hcond : w.rows * w.cols = X.rows * 1 := by rw [mul_one]; exact hw
  unfold predict
  rw [if_pos hcond]
  simp only []
  rw [npDot_ok (Mat.T ⟨X.rows, 1, fun i _ => flatIdx w i⟩) X rfl]
  simp only [ok_bind]
  refine ⟨_, rfl, rfl, rfl, ?_⟩
  intro i hi
  refine ⟨?_, ?_, ?_⟩
  · show (if i < X.cols then
        (if 1 / 2 < sigmoid ((∑ k in Finset.range X.rows, flatIdx w k * X.entry k i) + b)
         then (1 : ℝ) else 0) else 0) = _
    rw [if_pos hi]
  · intro hhalf
    show (if i < X.cols then
        (if 1 / 2 < sigmoid ((∑ k in Finset.range X.rows, flatIdx w k * X.entry k i) + b)
         then (1 : ℝ) else 0) else 0) = 0
    rw [if_pos hi, hhalf, if_neg (by norm_num)]
  · show (if i < X.cols then
        (if 1 / 2 < sigmoid ((∑ k in Finset.range X.rows, flatIdx w k * X.entry k i) + b)
         then (1 : ℝ) else 0) else 0) = 0 ∨
      (if i < X.cols then
        (if 1 / 2 < sigmoid ((∑ k in Finset.range X.rows, flatIdx w k * X.entry k i) + b)
         then (1 : ℝ) else 0) else 0) = 1
    rw [if_pos hi]
    by_cases hgt : 1 / 2 < sigmoid ((∑ k in Finset.range X.rows, flatIdx w k * X.entry k i) + b)
    · right; rw [if_pos hgt]
    · left; rw [if_neg hgt]

/-- C4 witness at `w = X = ` the `(1,1)` zero array, `b = 0`. -/
theorem predict_threshold_behavior_witness :
    ∃ P, predict zMat11 0 zMat11 = .ok P ∧ P.rows = 1 ∧ P.cols = zMat11.cols ∧
      ∀ i < zMat11.cols,
        (P.entry 0 i =
          if 1 / 2 < sigmoid ((∑ k in Finset.range zMat11.rows, flatIdx zMat11 k * zMat11.entry k i) + 0)
          then 1 else 0) ∧
        (sigmoid ((∑ k in Finset.range zMat11.rows, flatIdx zMat11 k * zMat11.entry k i) + 0) = 1 / 2 →
          P.entry 0 i = 0) ∧
        (P.entry 0 i = 0 ∨ P.entry 0 i = 1) :=
  predict_threshold_behavior zMat11 0 zMat11 (by decide)

/-- C1: at a perfectly valid training configuration the orchestrator
`model` does not return a trained-model record at all — `optimize`
returns the 4-tuple `(params, grads, costs, iterations)` while line 258
unpacks it into the three names `parameters, grads, costs`, so the run
stops with `ValueError: too many values to unpack` before the
predictions, accuracies and the result dictionary are ever computed. -/
theorem model_unpack_value_error :
    model zMat11 zMat11 zMat11 zMat11 1 1 = .error .unpackMismatch := rfl

/-- C10: neither `propagate` nor `optimize` writes to any array that
existed before the call: on the heap view of the code, whatever heap a
run finishes with agrees with the starting heap on every
previously-allocated address — in particular on the caller's `w`, `X`
and `Y` — because every array the body produces (each `np.dot`,
elementwise and scalar-broadcast result, and the `w - learning_rate*dw`
that the loop rebinds `w` to) is a fresh allocation. -/
theorem core_ops_preserve_heap (h : Heap) (rw rX rY : ℕ) (b lr : ℝ) (n : ℕ) (r : ℕ)
    (hr : r < Heap.size h) :
    Heap.get (heapOf (propagateH h rw b rX rY) h) r = Heap.get h r ∧
    Heap.get (heapOf (optimizeH h rw b rX rY n lr) h) r = Heap.get h r := by
  constructor
  · cases hp : propagateH h rw b rX rY with
    | error e => rfl
    | ok res =>
      exact (propagateH_ext h rw b rX rY res hp).2 r hr
  · cases ho : optimizeH h rw b rX rY n lr with
    | error e => rfl
    | ok res =>
      unfold optimizeH at ho
      cases hf : optFoldH rX rY lr (List.range n) h rw b none with
      | error e => rw [hf] at ho; simp at ho
      | ok t =>
        obtain ⟨h1, rw1, b1, rdw⟩ := t
        rw [hf] at ho
        simp only [ok_bind] at ho
        cases rdw with
        | none => simp at ho
        | some rd =>
          injection ho with ho1
          rw [← ho1]
          exact (optFoldH_ext rX rY lr (List.range n) h rw b none
            (h1, rw1, b1, some rd) hf).2 r hr

/-- C10 witness: a heap holding the caller's `w`, `X`, `Y` at addresses
`0`, `1`, `2`; both runs leave address `0` untouched. -/
theorem core_ops_preserve_heap_witness :
    Heap.get (heapOf (propagateH ([zMat11, zMat11, zMat11] : Heap) 0 0 1 2)
        ([zMat11, zMat11, zMat11] : Heap)) 0 =
      Heap.get ([zMat11, zMat11, zMat11] : Heap) 0 ∧
    Heap.get (heapOf (optimizeH ([zMat11, zMat11, zMat11] : Heap) 0 0 1 2 1 1)
        ([zMat11, zMat11, zMat11] : Heap)) 0 =
      Heap.get ([zMat11, zMat11, zMat11] : Heap) 0 :=
  core_ops_preserve_heap ([zMat11, zMat11, zMat11] : Heap) 0 1 2 0 1 1 0 (by decide)
